import Mathlib

/-!
Shallow embedding of the tag-documentation editor (`app.py`): identifier
derivation, document formatting, Record-Store upsert, and the
synchronization / reconciliation logic against the external ChromaDB
collection (the Index Store).

Modelling conventions:
* A Python dict holding a tag record is `TagDict`: each of the four keys
  may be absent (`Option`), and bracket access `d['k']` is `pyGetItem`,
  raising `KeyError` (an `Except.error`) when the key is missing, while
  `d.get('k', '')` is `Option.getD`.
* The external ChromaDB collection is `Chroma`: a list of (id, document)
  entries plus a boolean `failing` standing for the external client
  raising an exception on any operation, with exception text `failMsg`.
  Every collection operation (`chromaGet`, `chromaUpdate`, `chromaAdd`,
  `chromaDelete`, `chromaGetAll`) returns `Except`, erroring exactly when
  `failing` is set.
* Python `hash` is seeded per process; it is modelled as an arbitrary
  function parameter `hash : String → Int`, so one value of the parameter
  corresponds to one hash seed.  Python `%` on a positive modulus agrees
  with `Int.emod`, which is Lean's `%` on `Int`.
* Python exceptions are `Except.error`; a `try/except` block in the source
  becomes a `match` on the `Except` value of the guarded operations.
-/

/-- A Python dict for a tag record: each of the four keys may be absent. -/
structure TagDict where
  tag : Option String
  description : Option String
  merge_instruction : Option String
  category : Option String
deriving DecidableEq

/-- The ChromaDB collection state: (id, document) entries, plus a flag
modelling the external client raising on every operation, with the
exception text `failMsg`. -/
structure Chroma where
  entries : List (String × String)
  failing : Bool
  failMsg : String
deriving DecidableEq

/-- Python dict bracket access `d[k]` on an optional field: raises
`KeyError` when the key is absent. -/
def pyGetItem (v : Option String) (k : String) : Except String String :=
  match v with
  | some s => Except.ok s
  | none => Except.error ("KeyError: \x27" ++ k ++ "\x27")

/-- `format_entry` (app.py 37-42): the f-string
`"Tag: {d[tag]}\nDescription: {d[description]}\nInstruction: {d.get(merge_instruction,)}\nCategory: {d.get(category,)}\n"`.
The first two keys use bracket access (KeyError when absent); the last two
use `.get` with default `''`. -/
def format_entry (tag_dict : TagDict) : Except String String := do
  let t ← pyGetItem tag_dict.tag "tag"
  let d ← pyGetItem tag_dict.description "description"
  Except.ok ("Tag: " ++ t ++ "\nDescription: " ++ d ++ "\nInstruction: " ++
    tag_dict.merge_instruction.getD "" ++ "\nCategory: " ++ tag_dict.category.getD "" ++ "\n")

/-- `get_tag_id` (app.py 45-47): `f"tag_{hash(tag_name) % (10**8)}"`.
The process-seeded `hash` is the function parameter. -/
def get_tag_id (hash : String → Int) (tag_name : String) : String :=
  "tag_" ++ toString (hash tag_name % (10 ^ 8 : Int))

/-- The list of ids stored in the collection (in storage order). -/
def idList (db : Chroma) : List String := db.entries.map Prod.fst

/-- The set of ids stored in the collection. -/
def idFinset (db : Chroma) : Finset String := (idList db).toFinset

/-- The document text stored under an id (first entry with that id). -/
def getDoc (db : Chroma) (i : String) : Option String :=
  (db.entries.find? (fun e => e.1 == i)).map Prod.snd

/-- `db.get(ids=...)`: the requested ids that are present in the collection. -/
def chromaGet (db : Chroma) (ids : List String) : Except String (List String) :=
  if db.failing then Except.error db.failMsg
  else Except.ok (ids.filter (fun i => (idList db).contains i))

/-- `db.get()`: all stored ids. -/
def chromaGetAll (db : Chroma) : Except String (List String) :=
  if db.failing then Except.error db.failMsg else Except.ok (idList db)

/-- `db.update(ids=..., documents=...)`: replace the document stored under
each given id. -/
def chromaUpdate (db : Chroma) (ids docs : List String) : Except String Chroma :=
  if db.failing then Except.error db.failMsg
  else
    let es := (ids.zip docs).foldl
      (fun es p => es.map (fun e => if e.1 == p.1 then (e.1, p.2) else e)) db.entries
    Except.ok { db with entries := es }

/-- `db.add(documents=..., ids=...)`: append new entries. -/
def chromaAdd (db : Chroma) (docs ids : List String) : Except String Chroma :=
  if db.failing then Except.error db.failMsg
  else Except.ok { db with entries := db.entries ++ ids.zip docs }

/-- `db.delete(ids=...)`: drop every entry whose id is listed; an id that is
not present is silently ignored (ChromaDB delete does not raise for it). -/
def chromaDelete (db : Chroma) (ids : List String) : Except String Chroma :=
  if db.failing then Except.error db.failMsg
  else Except.ok { db with entries := db.entries.filter (fun e => !(ids.contains e.1)) }

/-- `sync_tag_to_chroma` (app.py 49-66).  The two bracket accesses
(`tag_data['tag']` on line 51 and inside `format_entry` on line 52) happen
before the `try` block, so a `KeyError` propagates; everything after is
inside `try`, so a collection failure is caught and rendered as the error
status string with the collection left as it was. -/
def sync_tag_to_chroma (hash : String → Int) (tag_data : TagDict) (db : Chroma) :
    Except String (Chroma × String) := do
  let tname ← pyGetItem tag_data.tag "tag"
  let tid := get_tag_id hash tname
  let doc_str ← format_entry tag_data
  match chromaGet db [tid] with
  | Except.error e => Except.ok (db, "Error syncing tag \x27" ++ tname ++ "\x27: " ++ e)
  | Except.ok existing =>
    if existing.isEmpty then
      match chromaAdd db [doc_str] [tid] with
      | Except.error e => Except.ok (db, "Error syncing tag \x27" ++ tname ++ "\x27: " ++ e)
      | Except.ok db2 => Except.ok (db2, "Added tag \x27" ++ tname ++ "\x27 to ChromaDB")
    else
      match chromaUpdate db [tid] [doc_str] with
      | Except.error e => Except.ok (db, "Error syncing tag \x27" ++ tname ++ "\x27: " ++ e)
      | Except.ok db2 => Except.ok (db2, "Updated tag \x27" ++ tname ++ "\x27 in ChromaDB")

/-- `remove_tag_from_chroma` (app.py 68-75): derive the id, delete it inside
`try`, report success or the caught exception as a string. -/
def remove_tag_from_chroma (hash : String → Int) (tag_name : String) (db : Chroma) :
    Chroma × String :=
  match chromaDelete db [get_tag_id hash tag_name] with
  | Except.error e => (db, "Error removing tag \x27" ++ tag_name ++ "\x27: " ++ e)
  | Except.ok db2 => (db2, "Removed tag \x27" ++ tag_name ++ "\x27 from ChromaDB")

/-- Python dict assignment `d[k] = v`: replace in place when the key exists,
else append at the end (insertion order preserved). -/
def dictInsert (d : List (String × Bool)) (k : String) (v : Bool) : List (String × Bool) :=
  if d.any (fun e => e.1 == k) then d.map (fun e => if e.1 == k then (k, v) else e)
  else d ++ [(k, v)]

/-- Python dict lookup `d[k]` as an option (first entry with that key). -/
def dictLookup (d : List (String × Bool)) (k : String) : Option Bool :=
  (d.find? (fun e => e.1 == k)).map Prod.snd

/-- How many entries of the dict model carry a given key. -/
def countKey (d : List (String × Bool)) (k : String) : Nat :=
  (d.filter (fun e => e.1 == k)).length

/-- The `for tag in tags_data` loop of `check_sync_status`, with the
accumulated `sync_status` dict made explicit. -/
def check_sync_loop (hash : String → Int) (chroma_ids : Finset String) :
    List TagDict → List (String × Bool) → Except String (List (String × Bool))
  | [], acc => Except.ok acc
  | tag :: rest, acc =>
    match tag.tag with
    | none => Except.error "KeyError: \x27tag\x27"
    | some t => check_sync_loop hash chroma_ids rest
        (dictInsert acc t (decide (get_tag_id hash t ∈ chroma_ids)))

/-- `check_sync_status` (app.py 88-94): build the `sync_status` dict mapping
each tag name to whether its derived id is in `chroma_ids`. -/
def check_sync_status (hash : String → Int) (tags_data : List TagDict)
    (chroma_ids : Finset String) : Except String (List (String × Bool)) :=
  check_sync_loop hash chroma_ids tags_data []

/-- The set comprehension `{get_tag_id(tag['tag']) for tag in tags_data}`
evaluates `tag['tag']` for every record, raising `KeyError` on a record
without the key; this extracts the tag names. -/
def extractTagNames : List TagDict → Except String (List String)
  | [] => Except.ok []
  | r :: rest =>
    match r.tag with
    | none => Except.error "KeyError: \x27tag\x27"
    | some s => (extractTagNames rest).map (fun l => s :: l)

/-- `clean_orphaned_chroma_entries` (app.py 308-330).  The module-level `db`
may be `None` (guard on line 310).  `db.get()` on line 317 is outside any
`try`, so its failure propagates; only `db.delete` is guarded.  The Python
sets `expected_ids`, `existing_ids` and their difference are modelled by
lists: `dedup` removes duplicates, so `orphaned_ids` lists exactly the
members of the set difference and its `length` is the set's cardinality. -/
def clean_orphaned_chroma_entries (hash : String → Int) (tags_data : List TagDict)
    (db : Option Chroma) : Except String (Option Chroma × String) :=
  match db with
  | none => Except.ok (none, "ChromaDB not available")
  | some db => do
    let names ← extractTagNames tags_data
    let expected_ids := names.map (get_tag_id hash)
    let existing ← chromaGetAll db
    let orphaned_ids := existing.dedup.filter (fun i => !(expected_ids.contains i))
    if orphaned_ids.isEmpty then
      Except.ok (some db, "No orphaned entries found")
    else
      match chromaDelete db orphaned_ids with
      | Except.error e => Except.ok (some db, "Error removing orphaned entries: " ++ e)
      | Except.ok db2 =>
        Except.ok (some db2,
          "Removed " ++ toString orphaned_ids.length ++ " orphaned entries from ChromaDB")

/-- One search hit of `search_tag_in_chroma`: the dict
`{'id': ..., 'document': ..., 'exact_match': ...}`. -/
structure SearchMatch where
  id : String
  document : String
  exact_match : Bool
deriving DecidableEq

/-- `get_all_chroma_documents` (app.py 298-306): all (id, document) pairs,
or `None` when the collection raises (the exception is caught and shown). -/
def get_all_chroma_documents (db : Chroma) : Option (List (String × String)) :=
  if db.failing then none else some db.entries

/-- Python substring test `needle in hay` on the underlying character
lists: some suffix of the haystack starts with the needle. -/
def strContainsAux (needle : List Char) : List Char → Bool
  | [] => needle.isEmpty
  | c :: rest => needle.isPrefixOf (c :: rest) || strContainsAux needle rest

/-- Python `needle in hay` for strings. -/
def strContains (hay needle : String) : Bool :=
  strContainsAux needle.toList hay.toList

/-- `search_tag_in_chroma` (app.py 332-350): scan every stored document,
collect a match for each document whose lowercased text contains the
lowercased query, flagging whether `"Tag: {tag_name}"` occurs verbatim. -/
def search_tag_in_chroma (tag_name : String) (db : Chroma) : List SearchMatch :=
  match get_all_chroma_documents db with
  | none => []
  | some entries =>
    entries.filterMap (fun e =>
      if strContains e.2.toLower tag_name.toLower then
        some { id := e.1, document := e.2,
               exact_match := strContains e.2 ("Tag: " ++ tag_name) }
      else none)

/-- The list comprehension `[t for t in tags_data if t["tag"] != current_tag]`
of the save handler (app.py 168): bracket access raises on a record without
the key; otherwise records whose tag equals the current tag are dropped. -/
def filterOutTag : List TagDict → String → Except String (List TagDict)
  | [], _ => Except.ok []
  | r :: rest, current =>
    match r.tag with
    | none => Except.error "KeyError: \x27tag\x27"
    | some s => (filterOutTag rest current).map (fun l => if s == current then l else r :: l)

/-- The Record-Store part of the `tag_form` save handler (app.py 159-170):
build `new_entry` from the stripped form fields, drop every record keyed by
`current_tag`, append `new_entry` at the end. -/
def tag_form_save (tags_data : List TagDict)
    (current_tag description merge_instruction category : String) :
    Except String (List TagDict) := do
  let new_entry : TagDict :=
    { tag := some current_tag, description := some description.trim,
      merge_instruction := some merge_instruction.trim, category := some category.trim }
  let rest ← filterOutTag tags_data current_tag
  Except.ok (rest ++ [new_entry])

/-! ### Helper lemmas shared by several claim theorems -/

lemma format_entry_eq (d : TagDict) (t s : String) (ht : d.tag = some t)
    (hd : d.description = some s) :
    format_entry d = Except.ok ("Tag: " ++ t ++ "\nDescription: " ++ s ++ "\nInstruction: " ++
      d.merge_instruction.getD "" ++ "\nCategory: " ++ d.category.getD "" ++ "\n") := by
  simp only [format_entry, pyGetItem, ht, hd]
  rfl

lemma filter_self_filter {α : Type} (p : α → Bool) (l : List α) :
    (l.filter p).filter p = l.filter p := by
  rw [List.filter_filter]
  exact List.filter_congr (fun x _ => by simp)

lemma filterMap_if_eq_map_filter {α β : Type} (p : α → Bool) (f : α → β) (l : List α) :
    l.filterMap (fun a => if p a then some (f a) else none) = (l.filter p).map f := by
  induction l with
  | nil => rfl
  | cons a l ih =>
    by_cases h : p a <;> simp [List.filterMap_cons, List.filter_cons, h, ih]

/-! ### C4: identifier derivation is deterministic -/

/-- C4: `get_tag_id` is a pure function of the hash seed (the `hash`
parameter) and the tag string: two calls with the same seed and the same
tag string content yield the same id, regardless of any other state. -/
theorem get_tag_id_deterministic (h1 h2 : String → Int) (t1 t2 : String)
    (hh : h1 = h2) (ht : t1 = t2) : get_tag_id h1 t1 = get_tag_id h2 t2 := by
  rw [hh, ht]

/-- Witness for C4 at the hash function `fun s => s.length` and tag `"foo"`. -/
theorem get_tag_id_deterministic_witness :
    get_tag_id (fun s => (s.length : Int)) "foo" = get_tag_id (fun s => (s.length : Int)) "foo" :=
  get_tag_id_deterministic _ _ _ _ rfl rfl

/-! ### C10: shape and range of derived identifiers -/

/-- C10: for every hash seed and every tag string, the derived id is
`"tag_"` followed by the decimal representation of a natural number
strictly below `10 ^ 8` (Python `%` on the positive modulus `10**8` is
`Int.emod`, whose value is always in `[0, 10^8)` even for a negative
hash), so at most `10 ^ 8` distinct identifiers exist. -/
theorem get_tag_id_range (hash : String → Int) (t : String) :
    ∃ n : Nat, n < 10 ^ 8 ∧ get_tag_id hash t = "tag_" ++ toString n := by
  have h0 : (0 : Int) ≤ hash t % (10 ^ 8 : Int) := Int.emod_nonneg _ (by norm_num)
  have h1 : hash t % (10 ^ 8 : Int) < 10 ^ 8 := Int.emod_lt_of_pos _ (by norm_num)
  refine ⟨(hash t % (10 ^ 8 : Int)).toNat, by omega, ?_⟩
  unfold get_tag_id
  congr 1
  obtain ⟨n, hn⟩ : ∃ n : Nat, hash t % (10 ^ 8 : Int) = (n : Int) :=
    ⟨(hash t % (10 ^ 8 : Int)).toNat, (Int.toNat_of_nonneg h0).symm⟩
  rw [hn]
  rfl

/-! ### C8: handling of absent record fields in `format_entry` -/

/-- C8 counterexample: a record dict missing the `tag` key makes
`format_entry` raise a `KeyError` rather than rendering an empty string,
refuting the claim that a missing field never raises. -/
theorem format_entry_missing_field_raises :
    format_entry { tag := none, description := some "d", merge_instruction := none,
                   category := none } = Except.error "KeyError: \x27tag\x27" := rfl

/-- C8 (amended): only the optional keys `merge_instruction` and `category`
default to the empty string when absent; any record providing `tag` and
`description` is formatted without an exception, with the absent optional
fields rendered as `""`. -/
theorem format_entry_optional_fields_default (d : TagDict) (t s : String)
    (ht : d.tag = some t) (hd : d.description = some s) :
    format_entry d = Except.ok ("Tag: " ++ t ++ "\nDescription: " ++ s ++ "\nInstruction: " ++
      d.merge_instruction.getD "" ++ "\nCategory: " ++ d.category.getD "" ++ "\n") :=
  format_entry_eq d t s ht hd

/-- Witness for the amended C8 at a record with both optional keys absent. -/
theorem format_entry_optional_fields_default_witness :
    format_entry { tag := some "t", description := some "d", merge_instruction := none,
                   category := none } =
      Except.ok ("Tag: " ++ "t" ++ "\nDescription: " ++ "d" ++ "\nInstruction: " ++
        (none : Option String).getD "" ++ "\nCategory: " ++
        (none : Option String).getD "" ++ "\n") :=
  format_entry_optional_fields_default _ _ _ rfl rfl

/-! ### C6: remove-from-index is idempotent -/

/-- C6: with the collection reachable, `remove_tag_from_chroma` always
reports success (deleting an id that is not present is not an error), and
repeating the removal returns the very same collection state and the same
success message: the second delete of one tag never errors. -/
theorem remove_tag_from_chroma_idempotent (hash : String → Int) (t : String) (db : Chroma)
    (hf : db.failing = false) :
    (remove_tag_from_chroma hash t db).1 =
      { db with entries := db.entries.filter (fun e =>
          !([get_tag_id hash t].contains e.1)) } ∧
    (remove_tag_from_chroma hash t db).2 = "Removed tag \x27" ++ t ++ "\x27 from ChromaDB" ∧
    remove_tag_from_chroma hash t (remove_tag_from_chroma hash t db).1 =
      ((remove_tag_from_chroma hash t db).1,
       "Removed tag \x27" ++ t ++ "\x27 from ChromaDB") := by
  simp [remove_tag_from_chroma, chromaDelete, hf, filter_self_filter]

/-- Witness for C6: removing the tag `"a"` from a one-entry collection that
does not contain its id, twice. -/
theorem remove_tag_from_chroma_idempotent_witness :
    (remove_tag_from_chroma (fun _ => 0) "a"
        { entries := [("x", "d")], failing := false, failMsg := "" }).1 =
      { ({ entries := [("x", "d")], failing := false, failMsg := "" } : Chroma) with
          entries := ([("x", "d")] : List (String × String)).filter (fun e =>
            !([get_tag_id (fun _ => 0) "a"].contains e.1)) } ∧
    (remove_tag_from_chroma (fun _ => 0) "a"
        { entries := [("x", "d")], failing := false, failMsg := "" }).2 =
      "Removed tag \x27" ++ "a" ++ "\x27 from ChromaDB" ∧
    remove_tag_from_chroma (fun _ => 0) "a"
        (remove_tag_from_chroma (fun _ => 0) "a"
          { entries := [("x", "d")], failing := false, failMsg := "" }).1 =
      ((remove_tag_from_chroma (fun _ => 0) "a"
          { entries := [("x", "d")], failing := false, failMsg := "" }).1,
       "Removed tag \x27" ++ "a" ++ "\x27 from ChromaDB") :=
  remove_tag_from_chroma_idempotent _ _ _ rfl

/-! ### C7: content search scans every stored document -/

/-- C7: with the collection reachable, `search_tag_in_chroma` returns
exactly one match per stored document whose lowercased text contains the
lowercased query, in storage order, each match carrying that document's id
and text, and its `exact_match` flag is true iff the document contains the
field-formatted tag header `"Tag: " ++ query` verbatim. -/
theorem search_tag_in_chroma_scans_all_documents (q : String) (db : Chroma)
    (hf : db.failing = false) :
    search_tag_in_chroma q db =
      (db.entries.filter (fun e => strContains e.2.toLower q.toLower)).map
        (fun e => { id := e.1, document := e.2,
                    exact_match := strContains e.2 ("Tag: " ++ q) }) ∧
    ∀ m ∈ search_tag_in_chroma q db,
      strContains m.document.toLower q.toLower = true ∧
      (m.exact_match = true ↔ strContains m.document ("Tag: " ++ q) = true) := by
  have heq : search_tag_in_chroma q db =
      (db.entries.filter (fun e => strContains e.2.toLower q.toLower)).map
        (fun e => { id := e.1, document := e.2,
                    exact_match := strContains e.2 ("Tag: " ++ q) }) := by
    rw [search_tag_in_chroma, get_all_chroma_documents, hf]
    exact filterMap_if_eq_map_filter _ _ _
  refine ⟨heq, ?_⟩
  intro m hm
  rw [heq] at hm
  simp only [List.mem_map, List.mem_filter] at hm
  obtain ⟨e, ⟨_, hp⟩, rfl⟩ := hm
  exact ⟨hp, Iff.rfl⟩

/-- Witness for C7 on a two-document collection, query `"foo"`. -/
theorem search_tag_in_chroma_scans_all_documents_witness :
    search_tag_in_chroma "foo"
        { entries := [("i1", "Tag: foo\nDescription: x\n"), ("i2", "zzz")],
          failing := false, failMsg := "" } =
      (([("i1", "Tag: foo\nDescription: x\n"), ("i2", "zzz")] :
          List (String × String)).filter
        (fun e => strContains e.2.toLower ("foo" : String).toLower)).map
        (fun e => { id := e.1, document := e.2,
                    exact_match := strContains e.2 ("Tag: " ++ "foo") }) ∧
    ∀ m ∈ search_tag_in_chroma "foo"
        { entries := [("i1", "Tag: foo\nDescription: x\n"), ("i2", "zzz")],
          failing := false, failMsg := "" },
      strContains m.document.toLower ("foo" : String).toLower = true ∧
      (m.exact_match = true ↔ strContains m.document ("Tag: " ++ "foo") = true) :=
  search_tag_in_chroma_scans_all_documents _ _ rfl

/-! ### C9: Record-Store upsert is delete-then-append keyed by tag -/

lemma filterOutTag_ok (tags : List TagDict) (t : String)
    (hw : ∀ r ∈ tags, r.tag ≠ none) :
    filterOutTag tags t = Except.ok (tags.filter (fun r => !(r.tag == some t))) := by
  induction tags with
  | nil => rfl
  | cons r rest ih =>
    obtain ⟨s, hs⟩ : ∃ s, r.tag = some s := by
      cases hr : r.tag with
      | none => exact absurd hr (hw r (by simp))
      | some s => exact ⟨s, rfl⟩
    have ih2 := ih (fun x hx => hw x (by simp [hx]))
    simp only [filterOutTag, hs, ih2, Except.map]
    by_cases hst : s = t
    · subst hst
      simp [List.filter_cons, hs]
    · simp [List.filter_cons, hs, hst]

/-- C9: the save handler's Record-Store update removes every prior record
whose `tag` equals the current tag, keeps all other records unchanged in
their relative order, and appends the freshly built record at the end —
there is no in-place merge of fields. -/
theorem tag_form_save_delete_then_append (tags : List TagDict) (t d mi c : String)
    (hw : ∀ r ∈ tags, r.tag ≠ none) :
    tag_form_save tags t d mi c =
      Except.ok ((tags.filter (fun r => !(r.tag == some t))) ++
        [{ tag := some t, description := some d.trim,
           merge_instruction := some mi.trim, category := some c.trim }]) := by
  simp only [tag_form_save, filterOutTag_ok tags t hw]
  rfl

/-- Witness for C9: saving tag `"a"` over a two-record store holding tags
`"a"` and `"b"`. -/
theorem tag_form_save_delete_then_append_witness :
    tag_form_save
        [{ tag := some "a", description := some "x", merge_instruction := none,
           category := none },
         { tag := some "b", description := some "y", merge_instruction := none,
           category := none }] "a" " d " "m" "c" =
      Except.ok ((([{ tag := some "a", description := some "x", merge_instruction := none,
                      category := none },
                    { tag := some "b", description := some "y", merge_instruction := none,
                      category := none }] : List TagDict).filter
          (fun r => !(r.tag == some "a"))) ++
        [{ tag := some "a", description := some (" d " : String).trim,
           merge_instruction := some ("m" : String).trim,
           category := some ("c" : String).trim }]) :=
  tag_form_save_delete_then_append _ _ _ _ _ (by decide)

/-! ### C2: sync status mapping is total and correct -/

lemma countKey_dictInsert (d : List (String × Bool)) (k : String) (v : Bool) (t : String) :
    countKey (dictInsert d k v) t =
      if t = k then (if countKey d t = 0 then 1 else countKey d t) else countKey d t := by
  unfold dictInsert countKey
  by_cases hany : d.any (fun e => e.1 == k) = true
  · rw [if_pos hany]
    have hmap : ((d.map (fun e => if e.1 == k then (k, v) else e)).filter
        (fun e => e.1 == t)).length = (d.filter (fun e => e.1 == t)).length := by
      rw [← List.countP_eq_length_filter, ← List.countP_eq_length_filter, List.countP_map]
      refine List.countP_congr (fun e _ => ?_)
      by_cases h : e.1 = k <;> simp [Function.comp, h]
    rw [hmap]
    by_cases htk : t = k
    · subst htk
      obtain ⟨e0, he0, hk0⟩ := List.any_eq_true.mp hany
      have hpos : 0 < (d.filter (fun e => e.1 == t)).length := by
        rw [← List.countP_eq_length_filter]
        exact List.countP_pos_iff.mpr ⟨e0, he0, hk0⟩
      rw [if_pos rfl, if_neg (by omega)]
    · rw [if_neg htk]
  · rw [if_neg hany]
    have hzero : (d.filter (fun e => e.1 == k)).length = 0 := by
      rw [← List.countP_eq_length_filter]
      rw [List.countP_eq_zero]
      intro e he
      exact fun hek => hany (List.any_eq_true.mpr ⟨e, he, hek⟩)
    rw [List.filter_append]
    by_cases htk : t = k
    · subst htk
      have hnil : List.filter (fun e => e.1 == t) d = [] := List.length_eq_zero.mp hzero
      simp [hnil]
    · have : ((k, v).1 == t) = false := by
        simp only [beq_eq_false_iff_ne]
        exact fun h => htk h.symm
      simp only [List.filter_cons, List.filter_nil, this]
      simp [if_neg htk]

lemma dictLookup_dictInsert (d : List (String × Bool)) (k : String) (v : Bool) (t : String) :
    dictLookup (dictInsert d k v) t = if t = k then some v else dictLookup d t := by
  unfold dictInsert dictLookup
  by_cases hany : d.any (fun e => e.1 == k) = true
  · rw [if_pos hany, List.find?_map]
    have hpt : ((fun (e : String × Bool) => e.1 == t) ∘
        (fun e => if e.1 == k then (k, v) else e)) = fun e => e.1 == t := by
      funext e
      by_cases h : e.1 = k <;> simp [Function.comp, h]
    rw [hpt]
    cases hfind : d.find? (fun e => e.1 == t) with
    | none =>
      have htk : t ≠ k := by
        intro h
        subst h
        obtain ⟨e0, he0, hk0⟩ := List.any_eq_true.mp hany
        exact (List.find?_eq_none.mp hfind e0 he0) hk0
      rw [if_neg htk]
      rfl
    | some e0 =>
      have hbeq := @List.find?_some (String × Bool) (fun e => e.1 == t) e0 d hfind
      have he0t : e0.1 = t := beq_iff_eq.mp hbeq
      by_cases htk : t = k
      · subst htk
        rw [if_pos rfl]
        simp [Option.map_map, Function.comp, he0t]
      · rw [if_neg htk]
        have hne : ¬ e0.1 = k := by
          rw [he0t]
          exact htk
        simp [Option.map_map, Function.comp, hne]
  · rw [if_neg hany, List.find?_append]
    by_cases htk : t = k
    · subst htk
      have hnone : d.find? (fun e => e.1 == t) = none := by
        rw [List.find?_eq_none]
        intro e he het
        exact hany (List.any_eq_true.mpr ⟨e, he, het⟩)
      rw [hnone]
      simp [List.find?]
    · have : ((k, v).1 == t) = false := by
        simp only [beq_eq_false_iff_ne]
        exact fun h => htk h.symm
      simp only [List.find?, this]
      rw [if_neg htk]
      cases d.find? (fun e => e.1 == t) <;> rfl

lemma check_sync_loop_spec (hash : String → Int) (ids : Finset String) :
    ∀ (tags : List TagDict) (acc : List (String × Bool)),
      (∀ r ∈ tags, r.tag ≠ none) →
      ∃ m, check_sync_loop hash ids tags acc = Except.ok m ∧
        ∀ t : String,
          countKey m t = (if some t ∈ tags.map TagDict.tag
            then (if countKey acc t = 0 then 1 else countKey acc t) else countKey acc t) ∧
          dictLookup m t = (if some t ∈ tags.map TagDict.tag
            then some (decide (get_tag_id hash t ∈ ids)) else dictLookup acc t) := by
  intro tags
  induction tags with
  | nil =>
    intro acc _
    exact ⟨acc, rfl, fun t => by simp⟩
  | cons r rest ih =>
    intro acc hw
    obtain ⟨s, hs⟩ : ∃ s, r.tag = some s := by
      cases hr : r.tag with
      | none => exact absurd hr (hw r (by simp))
      | some s => exact ⟨s, rfl⟩
    obtain ⟨m, hm, hform⟩ := ih (dictInsert acc s (decide (get_tag_id hash s ∈ ids)))
      (fun x hx => hw x (List.mem_cons_of_mem _ hx))
    refine ⟨m, ?_, ?_⟩
    · simpa [check_sync_loop, hs] using hm
    · intro t
      obtain ⟨h1, h2⟩ := hform t
      rw [countKey_dictInsert] at h1
      rw [dictLookup_dictInsert] at h2
      by_cases hts : t = s
      · subst hts
        have hmc : some t ∈ (r :: rest).map TagDict.tag := by simp [hs]
        rw [if_pos rfl] at h1 h2
        constructor
        · rw [h1, if_pos hmc]
          split_ifs <;> omega
        · rw [h2, if_pos hmc]
          split_ifs <;> rfl
      · have hmc : (some t ∈ (r :: rest).map TagDict.tag) ↔
            some t ∈ rest.map TagDict.tag := by
          simp [hs, hts]
        rw [if_neg hts] at h1 h2
        constructor
        · rw [h1]
          by_cases hmr : some t ∈ rest.map TagDict.tag
          · rw [if_pos hmr, if_pos (hmc.mpr hmr)]
          · rw [if_neg hmr, if_neg (fun h => hmr (hmc.mp h))]
        · rw [h2]
          by_cases hmr : some t ∈ rest.map TagDict.tag
          · rw [if_pos hmr, if_pos (hmc.mpr hmr)]
          · rw [if_neg hmr, if_neg (fun h => hmr (hmc.mp h))]

/-- C2: for every well-formed record collection and every set of existing
ids, `check_sync_status` succeeds and its `sync_status` mapping holds
exactly one boolean entry per tag name of the input collection — true iff
that tag's derived id belongs to the existing-id set — and no entry for
any other key.  The embedding is a pure function: the collection and the
id set are read-only arguments, so neither store is modified. -/
theorem check_sync_status_total_correct (hash : String → Int) (tags_data : List TagDict)
    (chroma_ids : Finset String) (hw : ∀ r ∈ tags_data, r.tag ≠ none) :
    ∃ m, check_sync_status hash tags_data chroma_ids = Except.ok m ∧
      ∀ t : String,
        (some t ∈ tags_data.map TagDict.tag →
          countKey m t = 1 ∧
          dictLookup m t = some (decide (get_tag_id hash t ∈ chroma_ids))) ∧
        (some t ∉ tags_data.map TagDict.tag →
          countKey m t = 0 ∧ dictLookup m t = none) := by
  obtain ⟨m, hm, hform⟩ := check_sync_loop_spec hash chroma_ids tags_data [] hw
  refine ⟨m, hm, fun t => ?_⟩
  obtain ⟨h1, h2⟩ := hform t
  constructor
  · intro hmem
    rw [if_pos hmem] at h1 h2
    exact ⟨by simpa [countKey] using h1, h2⟩
  · intro hmem
    rw [if_neg hmem] at h1 h2
    exact ⟨by simpa [countKey] using h1, by simpa [dictLookup] using h2⟩

/-- Witness for C2: one record with tag `"a"` against the empty id set. -/
theorem check_sync_status_total_correct_witness :
    ∃ m, check_sync_status (fun _ => 0)
        [{ tag := some "a", description := none, merge_instruction := none,
           category := none }] ∅ = Except.ok m ∧
      ∀ t : String,
        (some t ∈ [({ tag := some "a", description := none,
                      merge_instruction := none, category := none } : TagDict)].map
            TagDict.tag →
          countKey m t = 1 ∧
          dictLookup m t = some (decide (get_tag_id (fun _ => 0) t ∈ (∅ : Finset String)))) ∧
        (some t ∉ [({ tag := some "a", description := none,
                      merge_instruction := none, category := none } : TagDict)].map
            TagDict.tag →
          countKey m t = 0 ∧ dictLookup m t = none) :=
  check_sync_status_total_correct _ _ _ (by decide)

/-! ### C3 and C5: upsert-to-index behavior -/

/-- The document text `format_entry` produces from the four field values. -/
def formatDoc (t s mi cat : String) : String :=
  "Tag: " ++ t ++ "\nDescription: " ++ s ++ "\nInstruction: " ++ mi ++ "\nCategory: " ++ cat ++ "\n"

lemma format_entry_eq_formatDoc (d : TagDict) (t s : String) (ht : d.tag = some t)
    (hd : d.description = some s) :
    format_entry d =
      Except.ok (formatDoc t s (d.merge_instruction.getD "") (d.category.getD "")) :=
  format_entry_eq d t s ht hd

lemma sync_tag_fail (hash : String → Int) (d : TagDict) (db : Chroma) (t s : String)
    (ht : d.tag = some t) (hd : d.description = some s) (hf : db.failing = true) :
    sync_tag_to_chroma hash d db =
      Except.ok (db, "Error syncing tag \x27" ++ t ++ "\x27: " ++ db.failMsg) := by
  simp only [sync_tag_to_chroma, ht, pyGetItem, format_entry_eq_formatDoc d t s ht hd,
    chromaGet, hf, if_true]
  rfl

lemma sync_tag_update (hash : String → Int) (d : TagDict) (db : Chroma) (t s : String)
    (ht : d.tag = some t) (hd : d.description = some s) (hf : db.failing = false)
    (hm : get_tag_id hash t ∈ idList db) :
    sync_tag_to_chroma hash d db =
      Except.ok ({ db with entries := db.entries.map (fun e =>
          if e.1 == get_tag_id hash t then
            (e.1, formatDoc t s (d.merge_instruction.getD "") (d.category.getD "")) else e) },
        "Updated tag \x27" ++ t ++ "\x27 in ChromaDB") := by
  have hcont : (idList db).contains (get_tag_id hash t) = true := List.elem_iff.mpr hm
  simp only [sync_tag_to_chroma, ht, pyGetItem, format_entry_eq_formatDoc d t s ht hd,
    bind, Except.bind, chromaGet, chromaUpdate, hf, Bool.false_eq_true, if_false,
    List.filter_cons, List.filter_nil, hcont, if_true, List.isEmpty_cons,
    List.zip_cons_cons, List.zip_nil_right, List.foldl_cons, List.foldl_nil]

lemma sync_tag_add (hash : String → Int) (d : TagDict) (db : Chroma) (t s : String)
    (ht : d.tag = some t) (hd : d.description = some s) (hf : db.failing = false)
    (hm : get_tag_id hash t ∉ idList db) :
    sync_tag_to_chroma hash d db =
      Except.ok ({ db with entries := db.entries ++
          [(get_tag_id hash t,
            formatDoc t s (d.merge_instruction.getD "") (d.category.getD ""))] },
        "Added tag \x27" ++ t ++ "\x27 to ChromaDB") := by
  have hcont : (idList db).contains (get_tag_id hash t) = false := by
    rw [Bool.eq_false_iff]
    intro hc
    exact hm (List.elem_iff.mp hc)
  simp only [sync_tag_to_chroma, ht, pyGetItem, format_entry_eq_formatDoc d t s ht hd,
    bind, Except.bind, chromaGet, chromaAdd, hf, Bool.false_eq_true, if_false,
    List.filter_cons, List.filter_nil, hcont, List.isEmpty_nil,
    List.zip_cons_cons, List.zip_nil_right]
  rfl

/-- C3: for every well-formed tag record, `sync_tag_to_chroma` never raises
an exception of the Index Store (its result is always `Except.ok`); when the
store is reachable it checks existence of the derived id and either replaces
the stored document under that id (status `Updated ...`) or appends a new
entry under that id (status `Added ...`); when every store operation raises,
the exception is caught, the store is untouched, and the status is the
`Error syncing ...` string carrying the exception text. -/
theorem sync_tag_to_chroma_spec (hash : String → Int) (d : TagDict) (db : Chroma)
    (t s : String) (ht : d.tag = some t) (hd : d.description = some s) :
    ∃ res, sync_tag_to_chroma hash d db = Except.ok res ∧
      (db.failing = true →
        res = (db, "Error syncing tag \x27" ++ t ++ "\x27: " ++ db.failMsg)) ∧
      (db.failing = false → get_tag_id hash t ∈ idList db →
        res = ({ db with entries := db.entries.map (fun e =>
            if e.1 == get_tag_id hash t then
              (e.1, formatDoc t s (d.merge_instruction.getD "") (d.category.getD ""))
            else e) },
          "Updated tag \x27" ++ t ++ "\x27 in ChromaDB")) ∧
      (db.failing = false → get_tag_id hash t ∉ idList db →
        res = ({ db with entries := db.entries ++
            [(get_tag_id hash t,
              formatDoc t s (d.merge_instruction.getD "") (d.category.getD ""))] },
          "Added tag \x27" ++ t ++ "\x27 to ChromaDB")) := by
  by_cases hfb : db.failing
  · refine ⟨_, sync_tag_fail hash d db t s ht hd hfb, fun _ => rfl, ?_, ?_⟩
    · intro hf0
      rw [hfb] at hf0
      exact absurd hf0 (by simp)
    · intro hf0
      rw [hfb] at hf0
      exact absurd hf0 (by simp)
  · have hf : db.failing = false := Bool.not_eq_true _ |>.mp hfb
    by_cases hm : get_tag_id hash t ∈ idList db
    · refine ⟨_, sync_tag_update hash d db t s ht hd hf hm, ?_, fun _ _ => rfl, ?_⟩
      · intro hf1
        rw [hf] at hf1
        exact absurd hf1 (by simp)
      · intro _ hm1
        exact absurd hm hm1
    · refine ⟨_, sync_tag_add hash d db t s ht hd hf hm, ?_, ?_, fun _ _ => rfl⟩
      · intro hf1
        rw [hf] at hf1
        exact absurd hf1 (by simp)
      · intro _ hm1
        exact absurd hm1 hm

/-- A sample well-formed record used by concrete witnesses. -/
def sampleTag : TagDict :=
  { tag := some "a", description := some "d", merge_instruction := none, category := none }

/-- A sample reachable, empty collection used by concrete witnesses. -/
def emptyDb : Chroma := { entries := [], failing := false, failMsg := "" }

/-- Witness for C3: syncing the sample record into the empty collection. -/
theorem sync_tag_to_chroma_spec_witness :
    ∃ res, sync_tag_to_chroma (fun _ => 0) sampleTag emptyDb = Except.ok res ∧
      (emptyDb.failing = true →
        res = (emptyDb, "Error syncing tag \x27" ++ "a" ++ "\x27: " ++ emptyDb.failMsg)) ∧
      (emptyDb.failing = false → get_tag_id (fun _ => 0) "a" ∈ idList emptyDb →
        res = ({ emptyDb with entries := emptyDb.entries.map (fun e =>
            if e.1 == get_tag_id (fun _ => 0) "a" then
              (e.1, formatDoc "a" "d" (sampleTag.merge_instruction.getD "")
                (sampleTag.category.getD ""))
            else e) },
          "Updated tag \x27" ++ "a" ++ "\x27 in ChromaDB")) ∧
      (emptyDb.failing = false → get_tag_id (fun _ => 0) "a" ∉ idList emptyDb →
        res = ({ emptyDb with entries := emptyDb.entries ++
            [(get_tag_id (fun _ => 0) "a",
              formatDoc "a" "d" (sampleTag.merge_instruction.getD "")
                (sampleTag.category.getD ""))] },
          "Added tag \x27" ++ "a" ++ "\x27 to ChromaDB")) :=
  sync_tag_to_chroma_spec (fun _ => 0) sampleTag emptyDb "a" "d" rfl rfl

lemma find?_map_replace (l : List (String × String)) (i dval : String) :
    (l.map (fun e => if e.1 == i then (e.1, dval) else e)).find? (fun e => e.1 == i) =
      (l.find? (fun e => e.1 == i)).map (fun e => (e.1, dval)) := by
  induction l with
  | nil => rfl
  | cons a l ih =>
    by_cases hb : (a.1 == i) = true
    · simp only [List.map_cons, if_pos hb]
      rw [@List.find?_cons_of_pos (String × String) (fun e => e.1 == i) (a.1, dval) _ hb,
        @List.find?_cons_of_pos (String × String) (fun e => e.1 == i) a _ hb]
      rfl
    · simp only [List.map_cons, if_neg hb]
      rw [@List.find?_cons_of_neg (String × String) (fun e => e.1 == i) a _ hb,
        @List.find?_cons_of_neg (String × String) (fun e => e.1 == i) a _ hb, ih]

lemma getDoc_update (db : Chroma) (i dval : String) :
    getDoc { db with entries := db.entries.map (fun e =>
        if e.1 == i then (e.1, dval) else e) } i = (getDoc db i).map (fun _ => dval) := by
  unfold getDoc
  simp only [find?_map_replace, Option.map_map]
  cases db.entries.find? (fun e => e.1 == i) <;> rfl

lemma getDoc_some_of_mem (db : Chroma) (i : String) (hm : i ∈ idList db) :
    ∃ v, getDoc db i = some v := by
  obtain ⟨e, he, he1⟩ := List.mem_map.mp hm
  have hsome : (db.entries.find? (fun e => e.1 == i)).isSome = true :=
    List.find?_isSome.mpr ⟨e, he, by simp [he1]⟩
  obtain ⟨e0, he0⟩ := Option.isSome_iff_exists.mp hsome
  exact ⟨e0.2, by unfold getDoc; rw [he0]; rfl⟩

lemma getDoc_append_absent (db : Chroma) (i dval : String) (hm : i ∉ idList db) :
    getDoc { db with entries := db.entries ++ [(i, dval)] } i = some dval := by
  unfold getDoc
  rw [List.find?_append]
  have hnone : db.entries.find? (fun e => e.1 == i) = none := by
    rw [List.find?_eq_none]
    intro e he hei
    exact hm (List.mem_map.mpr ⟨e, he, beq_iff_eq.mp hei⟩)
  rw [hnone]
  simp [List.find?]

lemma idList_update (db : Chroma) (i dval : String) :
    idList { db with entries := db.entries.map (fun e =>
        if e.1 == i then (e.1, dval) else e) } = idList db := by
  unfold idList
  simp only [List.map_map]
  refine List.map_congr_left (fun e _ => ?_)
  by_cases h : (e.1 == i) = true
  · simp only [Function.comp, if_pos h]
  · simp only [Function.comp, if_neg h]

/-- C5: syncing the same well-formed record twice leaves the document text
stored under the record's derived id identical after the second call to what
it was after the first call, for every initial collection state (including a
failing one, where both calls leave the store untouched). -/
theorem sync_tag_to_chroma_idempotent (hash : String → Int) (d : TagDict) (db : Chroma)
    (t s : String) (ht : d.tag = some t) (hd : d.description = some s) :
    ∃ db1 m1 db2 m2,
      sync_tag_to_chroma hash d db = Except.ok (db1, m1) ∧
      sync_tag_to_chroma hash d db1 = Except.ok (db2, m2) ∧
      getDoc db2 (get_tag_id hash t) = getDoc db1 (get_tag_id hash t) := by
  by_cases hfb : db.failing
  · exact ⟨db, _, db, _, sync_tag_fail hash d db t s ht hd hfb,
      sync_tag_fail hash d db t s ht hd hfb, rfl⟩
  · have hf : db.failing = false := by
      cases h : db.failing
      · rfl
      · exact absurd h hfb
    by_cases hm : get_tag_id hash t ∈ idList db
    · obtain ⟨v, hv⟩ := getDoc_some_of_mem db _ hm
      refine ⟨_, _, _, _, sync_tag_update hash d db t s ht hd hf hm,
        sync_tag_update hash d _ t s ht hd hf ?_, ?_⟩
      · rw [idList_update]
        exact hm
      · rw [getDoc_update, getDoc_update, hv]
        rfl
    · refine ⟨_, _, _, _, sync_tag_add hash d db t s ht hd hf hm,
        sync_tag_update hash d _ t s ht hd hf ?_, ?_⟩
      · unfold idList
        simp
      · rw [getDoc_update, getDoc_append_absent db _ _ hm]
        rfl

/-- Witness for C5: syncing the sample record twice into the empty
collection. -/
theorem sync_tag_to_chroma_idempotent_witness :
    ∃ db1 m1 db2 m2,
      sync_tag_to_chroma (fun _ => 0) sampleTag emptyDb = Except.ok (db1, m1) ∧
      sync_tag_to_chroma (fun _ => 0) sampleTag db1 = Except.ok (db2, m2) ∧
      getDoc db2 (get_tag_id (fun _ => 0) "a") = getDoc db1 (get_tag_id (fun _ => 0) "a") :=
  sync_tag_to_chroma_idempotent (fun _ => 0) sampleTag emptyDb "a" "d" rfl rfl

/-! ### C1: orphan reconciliation removes exactly the set difference -/

/-- The id list expected from the Record Store: one derived id per tag of
the collection. -/
def expectedIds (hash : String → Int) (tags_data : List TagDict) : List String :=
  (tags_data.filterMap TagDict.tag).map (get_tag_id hash)

/-- The orphaned ids the reconciler computes: distinct stored ids whose
value is not among the expected ids. -/
def orphanedIds (hash : String → Int) (tags_data : List TagDict) (db : Chroma) : List String :=
  (idList db).dedup.filter (fun i => !((expectedIds hash tags_data).contains i))

lemma extractTagNames_ok (tags : List TagDict) (hw : ∀ r ∈ tags, r.tag ≠ none) :
    extractTagNames tags = Except.ok (tags.filterMap TagDict.tag) := by
  induction tags with
  | nil => rfl
  | cons r rest ih =>
    obtain ⟨s, hs⟩ : ∃ s, r.tag = some s := by
      cases hr : r.tag with
      | none => exact absurd hr (hw r (by simp))
      | some s => exact ⟨s, rfl⟩
    have ih2 := ih (fun x hx => hw x (List.mem_cons_of_mem _ hx))
    simp [extractTagNames, hs, ih2, Except.map, List.filterMap_cons]

lemma toFinset_map_fst_filter (es : List (String × String)) (E : Finset String) :
    ((es.filter (fun e => decide (e.1 ∈ E))).map Prod.fst).toFinset =
      E ∩ (es.map Prod.fst).toFinset := by
  ext a
  simp only [List.mem_toFinset, List.mem_map, List.mem_filter, Finset.mem_inter,
    decide_eq_true_eq]
  constructor
  · rintro ⟨e, ⟨he, hE⟩, rfl⟩
    exact ⟨hE, e, he, rfl⟩
  · rintro ⟨hE, e, he, rfl⟩
    exact ⟨e, ⟨he, hE⟩, rfl⟩

lemma clean_orphaned_run (hash : String → Int) (tags_data : List TagDict) (db : Chroma)
    (hw : ∀ r ∈ tags_data, r.tag ≠ none) (hf : db.failing = false) :
    clean_orphaned_chroma_entries hash tags_data (some db) =
      (if (orphanedIds hash tags_data db).isEmpty
       then Except.ok (some db, "No orphaned entries found")
       else Except.ok
         (some { db with entries := db.entries.filter (fun e =>
                  !((orphanedIds hash tags_data db).contains e.1)) },
          "Removed " ++ toString (orphanedIds hash tags_data db).length ++
            " orphaned entries from ChromaDB")) := by
  simp only [clean_orphaned_chroma_entries, extractTagNames_ok tags_data hw, bind,
    Except.bind, chromaGetAll, hf, Bool.false_eq_true, if_false, chromaDelete,
    expectedIds, orphanedIds]

/-- C1: with the collection reachable and a well-formed Record Store, the
reconciler succeeds and afterwards the Index Store holds exactly the
entries whose id is among the expected ids E (derived from all current
tags): each such entry is kept untouched in storage order, so the stored id
set equals E ∩ A where A is the set of ids that were present, and every id
of A outside E is gone (deleted by the single batch delete). -/
theorem clean_orphaned_removes_set_difference (hash : String → Int)
    (tags_data : List TagDict) (db : Chroma)
    (hw : ∀ r ∈ tags_data, r.tag ≠ none) (hf : db.failing = false) :
    ∃ db2 msg,
      clean_orphaned_chroma_entries hash tags_data (some db) = Except.ok (some db2, msg) ∧
      db2.entries = db.entries.filter
        (fun e => decide (e.1 ∈ (expectedIds hash tags_data).toFinset)) ∧
      idFinset db2 = (expectedIds hash tags_data).toFinset ∩ idFinset db := by
  have hrun := clean_orphaned_run hash tags_data db hw hf
  by_cases horph : (orphanedIds hash tags_data db).isEmpty = true
  · rw [hrun, if_pos horph]
    have hnil : orphanedIds hash tags_data db = [] := List.isEmpty_iff.mp horph
    have hall : ∀ e ∈ db.entries,
        decide (e.1 ∈ (expectedIds hash tags_data).toFinset) = true := by
      intro e he
      have hid : e.1 ∈ (idList db).dedup :=
        List.mem_dedup.mpr (List.mem_map.mpr ⟨e, he, rfl⟩)
      by_cases hcont : (expectedIds hash tags_data).contains e.1 = true
      · simp [List.mem_toFinset, List.elem_iff.mp hcont]
      · exfalso
        have hmem : e.1 ∈ orphanedIds hash tags_data db := by
          unfold orphanedIds
          refine List.mem_filter.mpr ⟨hid, ?_⟩
          simp only [Bool.not_eq_true']
          exact Bool.eq_false_iff.mpr hcont
        rw [hnil] at hmem
        exact absurd hmem (List.not_mem_nil _)
    refine ⟨db, _, rfl, (List.filter_eq_self.mpr hall).symm, ?_⟩
    have hsub : idFinset db ⊆ (expectedIds hash tags_data).toFinset := by
      intro a ha
      obtain ⟨e, he, rfl⟩ := List.mem_map.mp (List.mem_toFinset.mp ha)
      exact of_decide_eq_true (hall e he)
    exact (Finset.inter_eq_right.mpr hsub).symm
  · rw [hrun, if_neg horph]
    have hcongr : ∀ e ∈ db.entries,
        (!((orphanedIds hash tags_data db).contains e.1)) =
          decide (e.1 ∈ (expectedIds hash tags_data).toFinset) := by
      intro e he
      have hid : e.1 ∈ (idList db).dedup :=
        List.mem_dedup.mpr (List.mem_map.mpr ⟨e, he, rfl⟩)
      by_cases hcont : (expectedIds hash tags_data).contains e.1 = true
      · have hnotorph : ((orphanedIds hash tags_data db).contains e.1) = false := by
          rw [Bool.eq_false_iff]
          intro hc
          have hmem := List.elem_iff.mp hc
          have := (List.mem_filter.mp hmem).2
          rw [Bool.not_eq_true'] at this
          rw [this] at hcont
          exact absurd hcont (by simp)
        rw [hnotorph]
        simp [List.mem_toFinset, List.elem_iff.mp hcont]
      · have hcf : (expectedIds hash tags_data).contains e.1 = false := by
          rw [Bool.eq_false_iff]
          exact hcont
        have horphmem : e.1 ∈ orphanedIds hash tags_data db := by
          unfold orphanedIds
          refine List.mem_filter.mpr ⟨hid, ?_⟩
          rw [hcf]
          rfl
        have hoc : ((orphanedIds hash tags_data db).contains e.1) = true :=
          List.elem_iff.mpr horphmem
        rw [hoc]
        have hnm : e.1 ∉ (expectedIds hash tags_data).toFinset := by
          rw [List.mem_toFinset]
          intro hmem
          have hct : (expectedIds hash tags_data).contains e.1 = true :=
            List.elem_iff.mpr hmem
          rw [hct] at hcf
          exact absurd hcf (by simp)
        simp [hnm]
    have hfe : db.entries.filter (fun e => !((orphanedIds hash tags_data db).contains e.1)) =
        db.entries.filter (fun e => decide (e.1 ∈ (expectedIds hash tags_data).toFinset)) :=
      List.filter_congr hcongr
    refine ⟨{ db with entries := db.entries.filter (fun e =>
        !((orphanedIds hash tags_data db).contains e.1)) }, _, rfl, ?_, ?_⟩
    · exact hfe
    · show ((db.entries.filter
          (fun e => !((orphanedIds hash tags_data db).contains e.1))).map Prod.fst).toFinset =
        (expectedIds hash tags_data).toFinset ∩ (db.entries.map Prod.fst).toFinset
      rw [hfe]
      exact toFinset_map_fst_filter db.entries (expectedIds hash tags_data).toFinset

/-- The hash function used by the C1 witness (string length). -/
def sampleHash : String → Int := fun s => (s.length : Int)

/-- The Record Store of the C1 witness: tags `"a"` and `"bb"`. -/
def sampleTags2 : List TagDict :=
  [{ tag := some "a", description := some "", merge_instruction := none, category := none },
   { tag := some "bb", description := some "", merge_instruction := none, category := none }]

/-- The Index Store of the C1 witness: ids for `"a"`, `"bb"` and the
orphan `"ccc"`. -/
def sampleDb3 : Chroma :=
  { entries := [(get_tag_id sampleHash "a", "da"), (get_tag_id sampleHash "bb", "db"),
      (get_tag_id sampleHash "ccc", "dc")],
    failing := false, failMsg := "" }

/-- Witness for C1, the spec example: the Record Store holds two tags, the
Index Store holds their ids plus one orphan; reconciliation keeps exactly
the expected entries. -/
theorem clean_orphaned_removes_set_difference_witness :
    ∃ db2 msg,
      clean_orphaned_chroma_entries sampleHash sampleTags2 (some sampleDb3) =
        Except.ok (some db2, msg) ∧
      db2.entries = sampleDb3.entries.filter
        (fun e => decide (e.1 ∈ (expectedIds sampleHash sampleTags2).toFinset)) ∧
      idFinset db2 = (expectedIds sampleHash sampleTags2).toFinset ∩ idFinset sampleDb3 :=
  clean_orphaned_removes_set_difference sampleHash sampleTags2 sampleDb3 (by decide) rfl
